import Mathlib

/-!
# RoomeSplit settlement core — a shallow embedding

This file embeds the computation core of the RoomeSplit roommate-expense
application in Lean 4 and proves properties of it.  The embedded code is:

* `src/components/SettlementMatrix.tsx` — deduplication keys
  (`getLikelyItemSplitKeys`, `isExpenseDuplicate`), the aggregation
  (`calculateSettlements`), the pairwise debt function (`getDebt`), the
  instruction generator (`getSettlementInstructions`) and the per-month
  breakdown (`monthlySettlements` / `monthInstructions`);
* `src/App.tsx` — the roommate-history pipeline (`calculateRoommateHistory`),
  which implements a materially different aggregation policy;
* `src/utils/dateUtils.ts` — `getMonthYear`, `getUniqueMonths`,
  `filterExpensesByMonth`.

Modelling conventions:

* JavaScript `number` amounts are modelled as `ℚ` (exact arithmetic).
* A JS `Map<string, number>` read through `map.get(k) || 0` is modelled as a
  total function `String → ℚ` that defaults to `0`; initializing entries to
  `0` is then a no-op and is omitted.  A `Set<string>` used only through
  `has` / `add` is modelled as a `List String` read through membership.
* The composite map keys are modelled as the very strings the source builds
  (`payer ++ "|" ++ amount.toFixed(2) ++ "|" ++ item`, `debtor ++ "-" ++
  creditor`), so key-collision behaviour for names containing the separator
  is preserved.
* The two note regexes (`/Item:\s*(.+?)(?:\s*-|$)/i` and
  `/Settlement payment to (.+)/`) are modelled as explicit scanners over
  `List Char`.  `\s` is modelled by the ASCII whitespace class and `.` by
  "any character that is not a line terminator"; the engine's retry at a
  later occurrence after a newline-induced failure is modelled as overall
  failure (the data model has single-line notes), and Unicode-only
  whitespace/case folding is out of scope.
* `Number.prototype.toFixed(2)` rounds half toward `+∞` per the ECMA
  specification; `fix2` below does the same on `ℚ`.
-/

namespace RoomeSplit

/-! ## Character and string utilities -/

/-- ASCII fragment of the JS `\s` class. -/
def isWsChar (c : Char) : Bool :=
  c = ' ' || c = '\t' || c = '\n' || c = '\r' || c = '\x0b' || c = '\x0c'

/-- JS line terminators (the characters `.` does not match). -/
def isLineTerm (c : Char) : Bool :=
  c = '\n' || c = '\r'

/-- Embeds `String.toLowerCase` (ASCII fragment) as a character list. -/
def lowerChars (s : String) : List Char :=
  s.data.map Char.toLower

/-- Embeds `String.prototype.trim` on a character list. -/
def trimChars (l : List Char) : List Char :=
  ((l.dropWhile isWsChar).reverse.dropWhile isWsChar).reverse

/-- Rebuild a `String` from its characters. -/
def strOf (l : List Char) : String :=
  String.mk l

/-- The characters after the first occurrence of `pat` in `l`
(`String.prototype.includes` / the literal head of a regex scan). -/
def afterFirst (pat : List Char) : List Char → Option (List Char)
  | [] => none
  | c :: r =>
    if List.isPrefixOf pat (c :: r) then some ((c :: r).drop pat.length)
    else afterFirst pat r

/-- Does `\s*-` match at the start of `l`? -/
def wsThenHyphen (l : List Char) : Bool :=
  match l.dropWhile isWsChar with
  | '-' :: _ => true
  | _ => false

/-- The lazy capture `(.+?)` bounded by `(?:\s*-|$)`: consume at least one
character, stopping as early as `\s*-` matches or the string ends.  A line
terminator aborts the match (JS `.` does not cross it). -/
def lazyCap (acc : List Char) : List Char → Option (List Char)
  | [] => some acc.reverse
  | c :: r =>
    if acc.isEmpty = false && wsThenHyphen (c :: r) then some acc.reverse
    else if isLineTerm c then none
    else lazyCap (c :: acc) r

/-- Embeds `note.match(/Item:\s*(.+?)(?:\s*-|$)/i)`: the first capture group,
trimmed.  The scan runs on the lowercased note, which is sound because every
consumer of the capture lowercases it. -/
def itemTagMatch (note : String) : Option String :=
  match afterFirst [ 'i', 't', 'e', 'm', ':' ] (lowerChars note) with
  | none => none
  | some rest =>
    if rest.isEmpty then none
    else
      match rest.dropWhile isWsChar with
      | [] =>
        -- only whitespace follows the tag: the engine backtracks `\s*` and
        -- captures a trailing whitespace character, which trims to "";
        -- this fails only when that character is a line terminator.
        match rest.getLast? with
        | none => none
        | some c => if isLineTerm c then none else some ""
      | b :: body => (lazyCap [] (b :: body)).map (fun cs => strOf (trimChars cs))

/-- Embeds `note.toLowerCase().includes('item:')`. -/
def hasItemTag (note : String) : Bool :=
  (afterFirst [ 'i', 't', 'e', 'm', ':' ] (lowerChars note)).isSome

/-- Embeds `note.match(/Settlement payment to (.+)/)`: the first capture group.
`(.+)` greedily takes every following non-line-terminator character. -/
def settlementToMatch (note : Option String) : Option String :=
  match note with
  | none => none
  | some s =>
    match afterFirst ("Settlement payment to ".data) s.data with
    | none => none
    | some rest =>
      let cap := rest.takeWhile (fun c => isLineTerm c = false)
      if cap.isEmpty then none else some (strOf cap)

/-! ## `toFixed(2)` -/

/-- The integer of cents produced by `amount.toFixed(2)`: the `n` with
`n / 100` closest to the amount, ties toward the larger `n`, i.e.
`⌊q * 100 + 1/2⌋`.  Written with integer Euclidean division on the reduced
numerator and denominator so that it evaluates inside the kernel; the theorem
`fix2_eq_floor` below proves it equal to the floor formula. -/
def fix2 (q : ℚ) : ℤ :=
  (200 * q.num + q.den) / (2 * q.den)

/-- Two-digit zero-padded rendering (`String(n).padStart(2, '0')`). -/
def pad2 (n : ℕ) : String :=
  (if n < 10 then "0" else "") ++ toString n

/-- The decimal string `amount.toFixed(2)`. -/
def fixed2Str (q : ℚ) : String :=
  (if fix2 q < 0 then "-" else "")
    ++ toString ((fix2 q).natAbs / 100) ++ "." ++ pad2 ((fix2 q).natAbs % 100)

/-! ## Data model (`src/types.ts`)

Only the fields the computation core reads are embedded; `id` and `paymode`
never enter any calculation. -/

inductive ExpenseType
  | VEGETABLE
  | MART
  | GROCERY
  | RENT
  | ELECTRICITY
  | SETTLEMENT
  | OTHER
  deriving DecidableEq

/-- The string value of the TS enum member. -/
def ExpenseType.label : ExpenseType → String
  | .VEGETABLE => "Vegetable"
  | .MART => "Mart"
  | .GROCERY => "Grocery"
  | .RENT => "Rent"
  | .ELECTRICITY => "Electricity"
  | .SETTLEMENT => "Settlement"
  | .OTHER => "Other"

structure Expense where
  name : String
  «to» : Option String
  type : ExpenseType
  date : String
  amount : ℚ
  note : Option String
  deriving DecidableEq

structure SharedPurchase where
  itemName : String
  amount : ℚ
  buyer : String
  payer : String
  date : String
  splitBetween : Option (List String)
  perPersonAmount : Option ℚ
  deriving DecidableEq

/-! ## Deduplication (`SettlementMatrix.tsx` lines 38-56) -/

/-- The key `` `${p.payer}|${p.amount.toFixed(2)}|${p.itemName.toLowerCase()}` ``. -/
def purchaseKey (p : SharedPurchase) : String :=
  p.payer ++ "|" ++ fixed2Str p.amount ++ "|" ++ strOf (lowerChars p.itemName)

/-- Embeds `getLikelyItemSplitKeys` (SettlementMatrix.tsx): one key per purchase,
with no `splitBetween` restriction. -/
def getLikelyItemSplitKeys (purchaseList : List SharedPurchase) : List String :=
  purchaseList.map purchaseKey

/-- The key built for an expense from its extracted item name. -/
def expenseKey (e : Expense) (itemName : String) : String :=
  e.name ++ "|" ++ fixed2Str e.amount ++ "|" ++ itemName

/-- Embeds `isExpenseDuplicate` (SettlementMatrix.tsx and, verbatim, App.tsx). -/
def isExpenseDuplicate (e : Expense) (keys : List String) : Bool :=
  match e.note with
  | none => false
  | some note =>
    if hasItemTag note = false then false
    else
      match itemTagMatch note with
      | none => false
      | some itemName => keys.contains (expenseKey e itemName)

/-! ## Balance aggregation (`SettlementMatrix.tsx` `calculateSettlements`,
lines 61-127)

The source walks `expenseList` once, updating `spendingMap` and
`spendingDisplayMap` for non-settlement records and `paymentsMap` for
settlement records, then walks `purchaseList` updating
`spendingDisplayMap` and `sharedPurchaseDebts`.  Each record touches a
disjoint set of maps through an independent update, so the single pass is
embedded as one left fold per map over the same list, in source order. -/

/-- The update `map.set(k, (map.get(k) || 0) + v)` on a total, zero-defaulted map. -/
def addQ (f : String → ℚ) (k : String) (v : ℚ) : String → ℚ :=
  fun x => if x = k then f k + v else f x

/-- The pairwise key `` `${a}-${b}` ``. -/
def pairKey (a b : String) : String :=
  a ++ "-" ++ b

/-- One expense-loop step for `spendingMap` (the equal-split pool): skip
settlements and duplicates of a shared purchase, otherwise credit the payer. -/
def spendingStep (keys : List String) (f : String → ℚ) (e : Expense) : String → ℚ :=
  if e.type = ExpenseType.SETTLEMENT then f
  else if isExpenseDuplicate e keys then f
  else addQ f e.name e.amount

/-- The `spendingMap` after the expense loop.  The source's zero-initialization
for each roommate is a no-op on a zero-defaulted map and is omitted. -/
def spendingOf (keys : List String) (es : List Expense) : String → ℚ :=
  es.foldl (spendingStep keys) (fun _ => 0)

/-- The guards `if (!to)` / `if (to)` in the settlement branch: JS treats the empty
string as falsy, so an empty `to` field also falls back to the note match. -/
def resolveTo (e : Expense) : Option String :=
  match e.«to» with
  | some t => if t = "" then settlementToMatch e.note else some t
  | none => settlementToMatch e.note

/-- One expense-loop step for `paymentsMap` (direct settlements). -/
def paymentsStep (f : String → ℚ) (e : Expense) : String → ℚ :=
  if e.type = ExpenseType.SETTLEMENT then
    match resolveTo e with
    | some t => addQ f (pairKey e.name t) e.amount
    | none => f
  else f

/-- The `paymentsMap` after the expense loop. -/
def directPaymentsOf (es : List Expense) : String → ℚ :=
  es.foldl paymentsStep (fun _ => 0)

/-- Does the purchase carry a non-empty `splitBetween` list
(`purchase.splitBetween && purchase.splitBetween.length > 0`)? -/
def splitNonempty (p : SharedPurchase) : Bool :=
  match p.splitBetween with
  | some l => l.isEmpty = false
  | none => false

/-- The default `perPersonAmount ?? amount / splitCount`. -/
def perPersonOf (p : SharedPurchase) (l : List String) : ℚ :=
  p.perPersonAmount.getD (p.amount / l.length)

/-- The legacy direct-debt branch: the buyer owes the payer the full amount. -/
def legacyDebtStep (f : String → ℚ) (p : SharedPurchase) : String → ℚ :=
  if p.buyer = p.payer then f else addQ f (pairKey p.buyer p.payer) p.amount

/-- One purchase-loop step for `sharedPurchaseDebts`: every split participant
other than the payer owes the per-person share; purchases without a split
fall back to the legacy branch. -/
def sharedDebtStep (f : String → ℚ) (p : SharedPurchase) : String → ℚ :=
  match p.splitBetween with
  | some l =>
    if l.isEmpty then legacyDebtStep f p
    else
      l.foldl
        (fun g person =>
          if person = p.payer then g else addQ g (pairKey person p.payer) (perPersonOf p l))
        f
  | none => legacyDebtStep f p

/-- The `sharedPurchaseDebts` map after the purchase loop. -/
def sharedPurchaseDebtsOf (ps : List SharedPurchase) : String → ℚ :=
  ps.foldl sharedDebtStep (fun _ => 0)

/-- The `spendingDisplayMap` ("Variable Spent"): the expense loop applies the
same updates to it as to `spendingMap` (a duplicate is skipped from both by
the early `return`), and the purchase loop then credits every purchase to
its payer. -/
def displayOf (keys : List String) (es : List Expense) (ps : List SharedPurchase) :
    String → ℚ :=
  ps.foldl (fun f p => addQ f p.payer p.amount) (es.foldl (spendingStep keys) (fun _ => 0))

/-- The record returned by `calculateSettlements`. -/
structure SettlementData where
  purchaseSpending : String → ℚ
  purchaseSpendingDisplay : String → ℚ
  directPayments : String → ℚ
  sharedPurchaseDebts : String → ℚ

/-- Embeds `calculateSettlements(expenseList, purchaseList)`. -/
def calculateSettlements (es : List Expense) (ps : List SharedPurchase) : SettlementData :=
  let keys := getLikelyItemSplitKeys ps
  { purchaseSpending := spendingOf keys es
    purchaseSpendingDisplay := displayOf keys es ps
    directPayments := directPaymentsOf es
    sharedPurchaseDebts := sharedPurchaseDebtsOf ps }

/-! ## The debt matrix (`SettlementMatrix.tsx` `getDebt`, lines 208-222)

The component-scope constant `m = roommates.length` (line 34, behind the
line-32 early return for an empty list) is passed explicitly.  The optional
`sharedPurchaseDebts` parameter is supplied at every call site; its absence
is the zero map. -/

/-- Embeds `getDebt(rowName, colName, spending, payments, sharedPurchaseDebts)`. -/
def getDebt (m : ℕ) (rowName colName : String) (spending payments sharedDebts : String → ℚ) : ℚ :=
  if rowName = colName then 0
  else
    (spending colName / m - spending rowName / m)
      - payments (pairKey rowName colName) + payments (pairKey colName rowName)
      + (sharedDebts (pairKey rowName colName) - sharedDebts (pairKey colName rowName))

/-- Line 32: the settlement matrix (and with it every debt computation in the
component) is rendered only when the roommate list is non-empty. -/
def settlementMatrixComputes (roommates : List String) : Bool :=
  roommates.isEmpty = false

/-- Line 34: the divisor used for equal splits. -/
def settlementDivisor (roommates : List String) : ℕ :=
  roommates.length

/-! ## Settlement instructions
(`SettlementMatrix.tsx` `getSettlementInstructions`, lines 224-327)

Only the name field of a roommate enters the computation, so roommates are
embedded as their name list.  The `items` strings attached to a detail are
display-only metadata (never summed, never compared) and are omitted. -/

/-- One provenance line of an instruction (`expenseDetails` entry). -/
structure ExpenseDetail where
  type : String
  amount : ℚ
  totalAmount : ℚ
  deriving DecidableEq

/-- An emitted instruction.  `from` is a Lean keyword, hence `fromName`
and, for symmetry, `toName`. -/
structure Instruction where
  fromName : String
  toName : String
  amount : ℚ
  expenseDetails : List ExpenseDetail
  deriving DecidableEq

/-- In-place accumulation into the `expensesByType` map, which iterates in
insertion order; the `items` list it also carries is display-only and
omitted. -/
def updGroup (g : List (ExpenseType × ℚ)) (t : ExpenseType) (a : ℚ) :
    List (ExpenseType × ℚ) :=
  match g with
  | [] => [(t, a)]
  | (t', a') :: rest => if t' = t then (t', a' + a) :: rest else (t', a') :: updGroup rest t a

/-- The `expensesByType` grouping: a creditor's relevant expenses by type, summing
amounts. -/
def groupByType (es : List Expense) : List (ExpenseType × ℚ) :=
  es.foldl (fun g e => updGroup g e.type e.amount) []

/-- The creditor's expenses contributing to an instruction's details:
non-settlement, non-duplicate expenses paid by the creditor. -/
def colExpenses (keys : List String) (creditor : String) (es : List Expense) : List Expense :=
  es.filter (fun e =>
    decide (e.name = creditor)
      && (decide (e.type ≠ ExpenseType.SETTLEMENT) && !(isExpenseDuplicate e keys)))

/-- The per-purchase detail the generator emits for a debtor/creditor pair,
when the purchase is relevant. -/
def purchaseDetail (debtor creditor : String) (p : SharedPurchase) : Option ExpenseDetail :=
  if p.payer ≠ creditor then none
  else
    match p.splitBetween with
    | some l =>
      if l.isEmpty then
        if p.buyer = debtor ∧ debtor ≠ creditor then
          some { type := "Specific/Split Items", amount := p.amount, totalAmount := p.amount }
        else none
      else
        if debtor ∈ l ∧ debtor ≠ creditor then
          some { type := "Specific/Split Items", amount := perPersonOf p l, totalAmount := p.amount }
        else none
    | none =>
      if p.buyer = debtor ∧ debtor ≠ creditor then
        some { type := "Specific/Split Items", amount := p.amount, totalAmount := p.amount }
      else none

/-- The `expenseDetails` list built for an emitted instruction: the
creditor's per-type equal-split shares followed by one line per relevant
shared purchase. -/
def buildDetails (m : ℕ) (debtor creditor : String) (keys : List String)
    (es : List Expense) (ps : List SharedPurchase) : List ExpenseDetail :=
  (groupByType (colExpenses keys creditor es)).map
      (fun ta => { type := ta.1.label, amount := ta.2 / m, totalAmount := ta.2 })
    ++ ps.filterMap (purchaseDetail debtor creditor)

/-- Embeds `getSettlementInstructions(spending, payments, sharedDebts, expenseList,
purchaseList)`: both index loops, the diagonal skip, and the `debt > 0.01`
emission threshold.  The optional list parameters are supplied at every call
site. -/
def getSettlementInstructions (m : ℕ) (roommates : List String)
    (spending payments sharedDebts : String → ℚ)
    (es : List Expense) (ps : List SharedPurchase) : List Instruction :=
  let splitKeys := getLikelyItemSplitKeys ps
  (List.range roommates.length).flatMap (fun i =>
    (List.range roommates.length).filterMap (fun j =>
      if i = j then none
      else
        let debt := getDebt m (roommates.getD i "") (roommates.getD j "")
          spending payments sharedDebts
        if debt > 1 / 100 then
          some { fromName := roommates.getD i "", toName := roommates.getD j ""
                 amount := debt
                 expenseDetails :=
                   buildDetails m (roommates.getD i "") (roommates.getD j "") splitKeys es ps }
        else none))

/-- The all-time pipeline (`settlementInstructions`, line 329, with no date
filter active: `filteredExpenses = expenses`, `filteredPurchases =
sharedPurchases`). -/
def settlementInstructionsAll (roommates : List String)
    (es : List Expense) (ps : List SharedPurchase) : List Instruction :=
  let d := calculateSettlements es ps
  getSettlementInstructions roommates.length roommates
    d.purchaseSpending d.directPayments d.sharedPurchaseDebts es ps

/-- The all-time pairwise debt as rendered by the matrix. -/
def matrixDebt (roommates : List String) (es : List Expense) (ps : List SharedPurchase)
    (i j : String) : ℚ :=
  let d := calculateSettlements es ps
  getDebt roommates.length i j d.purchaseSpending d.directPayments d.sharedPurchaseDebts

/-! ## Date utilities (`src/utils/dateUtils.ts`)

`getMonthYear` parses the date string by `'-'`-splitting, builds a JS
`Date(year, monthIndex, day)` — which normalizes out-of-range months and
days over the proleptic Gregorian calendar — and renders `MM-YYYY`.  The
`Date` constructor is embedded through Julian-day-number arithmetic; the
time zone offset is ignored (it can only matter within hours of the
±100,000,000-day representable range boundary), and the `'text'` render
mode, unused by any computation, is omitted. -/

/-- Embeds `parseInt(s, 10)`: skip leading whitespace, optional sign, then the
maximal digit prefix; no digits means `NaN` (here `none`). -/
def digitsVal (l : List Char) : ℕ :=
  l.foldl (fun n c => n * 10 + (c.toNat - 48)) 0

def parseIntJS (s : String) : Option ℤ :=
  match s.data.dropWhile isWsChar with
  | '-' :: r =>
    let ds := r.takeWhile Char.isDigit
    if ds.isEmpty then none else some (-(digitsVal ds : ℤ))
  | '+' :: r =>
    let ds := r.takeWhile Char.isDigit
    if ds.isEmpty then none else some ((digitsVal ds : ℤ))
  | l =>
    let ds := l.takeWhile Char.isDigit
    if ds.isEmpty then none else some ((digitsVal ds : ℤ))

/-- Embeds `dateString.split('-')` over the character list (`"".split('-')` is
`[""]`, separators at the ends yield empty parts). -/
def splitDash : List Char → List (List Char)
  | [] => [[]]
  | c :: r =>
    if c = '-' then [] :: splitDash r
    else
      match splitDash r with
      | h :: t => (c :: h) :: t
      | [] => [[c]]

/-- Julian day number of the civil date `(y, m, d)` with `m ∈ [1, 12]`,
proleptic Gregorian (floor division throughout). -/
def jdnFromCivil (y m d : ℤ) : ℤ :=
  let a := (14 - m) / 12
  let y2 := y + 4800 - a
  let m2 := m + 12 * a - 3
  d + (153 * m2 + 2) / 5 + 365 * y2 + y2 / 4 - y2 / 100 + y2 / 400 - 32045

/-- Civil `(year, month, day)` of a Julian day number. -/
def civilFromJdn (j : ℤ) : ℤ × ℤ × ℤ :=
  let a := j + 32044
  let b := (4 * a + 3) / 146097
  let c := a - 146097 * b / 4
  let d2 := (4 * c + 3) / 1461
  let e := c - 1461 * d2 / 4
  let m2 := (5 * e + 2) / 153
  (100 * b + d2 - 4800 + m2 / 10, m2 + 3 - 12 * (m2 / 10), e - (153 * m2 + 2) / 5 + 1)

/-- Embeds `new Date(y, m0, d).getMonth() + 1` and `.getFullYear()`: two-digit
years map to the 1900s, month and day overflow roll over, and a time value
beyond ±100,000,000 days from the epoch is an invalid date (`none`). -/
def jsDateMonthYear (y m0 d : ℤ) : Option (ℤ × ℤ) :=
  let yAdj := if 0 ≤ y ∧ y ≤ 99 then y + 1900 else y
  let jdn := jdnFromCivil (yAdj + m0 / 12) (m0 % 12 + 1) 1 + (d - 1)
  if jdn - 2440588 < -100000000 ∨ 100000000 < jdn - 2440588 then none
  else some ((civilFromJdn jdn).2.1, (civilFromJdn jdn).1)

/-- Render `` `${String(month).padStart(2, '0')}-${year}` `` from parsed
year/month/day strings, falling back to the input when parsing or the
`Date` fails. -/
def monthYearFromParts (dateString ys ms ds : String) : String :=
  match parseIntJS ys, parseIntJS ms, parseIntJS ds with
  | some y, some mo, some d =>
    match jsDateMonthYear y (mo - 1) d with
    | some (mon, yy) => pad2 mon.toNat ++ "-" ++ toString yy
    | none => dateString
  | _, _, _ => dateString

/-- Embeds `getMonthYear(dateString)` (numeric mode). -/
def getMonthYear (dateString : String) : String :=
  if dateString = "" then ""
  else
    match (splitDash dateString.data).map strOf with
    | [p0, p1] =>
      -- already MM-YYYY: returned as is; any other two-part string leaves
      -- `date` null and is likewise returned unchanged.
      if p0.length = 2 ∧ p1.length = 4 then dateString else dateString
    | [p0, p1, p2] =>
      if p0.length = 4 then monthYearFromParts dateString p0 p1 p2
      else if p0.length = 2 then monthYearFromParts dateString p2 p1 p0
      else dateString
    | _ => dateString

/-- One step of `getUniqueMonths`'s `Set` accumulation: `Array.from` of a
`Set` yields first-insertion order. -/
def insertMonthAcc (acc : List String) (d : String) : List String :=
  let my := getMonthYear d
  if my = "" then acc else if my ∈ acc then acc else acc ++ [my]

/-- Embeds `Number(s)` on the full string, for the sort comparator's
`split('-').map(Number)`.  Only sign-plus-digits strings are numeric here;
a `NaN` key (or a missing part) is modelled as `0` — the JS comparator's
behaviour on `NaN` is engine-defined and no claim depends on it.  Note
`Number("") = 0`. -/
def numFullJS (s : String) : Option ℤ :=
  match s.data with
  | [] => some 0
  | '-' :: r => if r ≠ [] ∧ r.all Char.isDigit then some (-(digitsVal r : ℤ)) else none
  | '+' :: r => if r ≠ [] ∧ r.all Char.isDigit then some ((digitsVal r : ℤ)) else none
  | l => if l.all Char.isDigit then some ((digitsVal l : ℤ)) else none

/-- The `(year, month)` sort key of an `MM-YYYY` string. -/
def monthKey (s : String) : ℤ × ℤ :=
  let parts := (splitDash s.data).map strOf
  ((parts.get? 1).bind numFullJS |>.getD 0, (parts.get? 0).bind numFullJS |>.getD 0)

/-- Does `a` sort no later than `b` (newest first: year descending, then
month descending; ties keep input order)? -/
def monthBefore (a b : String) : Bool :=
  decide ((monthKey b).1 < (monthKey a).1
    ∨ ((monthKey b).1 = (monthKey a).1 ∧ (monthKey b).2 ≤ (monthKey a).2))

/-- Stable insertion of `x` into an already-sorted list: `x` goes before the
first element it need not follow, so equal keys keep input order, matching
the (stable) `Array.prototype.sort`. -/
def insertMonthSorted (x : String) : List String → List String
  | [] => [x]
  | y :: ys => if monthBefore x y then x :: y :: ys else y :: insertMonthSorted x ys

/-- Stable sort by the month comparator. -/
def sortMonths : List String → List String
  | [] => []
  | x :: xs => insertMonthSorted x (sortMonths xs)

/-- Embeds `getUniqueMonths(expenses)`. -/
def getUniqueMonths (es : List Expense) : List String :=
  sortMonths (es.foldl (fun acc e => insertMonthAcc acc e.date) [])

/-- Embeds `filterExpensesByMonth(expenses, monthYear)`. -/
def filterExpensesByMonth (es : List Expense) (monthYear : String) : List Expense :=
  es.filter (fun e => getMonthYear e.date == monthYear)

/-- The purchases of a month (`SettlementMatrix.tsx` lines 191-194 and
503-506). -/
def filterPurchasesByMonth (ps : List SharedPurchase) (monthYear : String) :
    List SharedPurchase :=
  ps.filter (fun p => getMonthYear p.date == monthYear)

/-- The month-wise breakdown entry: `monthlySettlements[month]` together
with the `monthInstructions` computed from it (lines 187-198 and 508-515). -/
def monthlyInstructions (roommates : List String) (es : List Expense)
    (ps : List SharedPurchase) (month : String) : List Instruction :=
  let monthExpenses := filterExpensesByMonth es month
  let monthPurchases := filterPurchasesByMonth ps month
  let d := calculateSettlements monthExpenses monthPurchases
  getSettlementInstructions roommates.length roommates
    d.purchaseSpending d.directPayments d.sharedPurchaseDebts monthExpenses monthPurchases

/-! ## The roommate-history pipeline (`src/App.tsx`
`calculateRoommateHistory`, lines 297-420)

This second implementation of the aggregation differs from
`SettlementMatrix.tsx` in three ways: its key set keeps only purchases that
carry a non-empty `splitBetween`; expenses with an `Item:` note that match
no purchase are "personal" and are excluded from the equal-split pool; and
a split purchase with no matching expense is routed into the equal-split
pool (`generalSpendingMap`) instead of the pairwise `sharedPurchaseDebts`,
which receives only legacy no-split purchases.  Its settlement branch is
verbatim the one in `calculateSettlements`, so `directPaymentsOf` is
reused. -/

/-- App.tsx `getLikelyItemSplitKeys`: only purchases that are actually
split. -/
def appGetLikelyItemSplitKeys (ps : List SharedPurchase) : List String :=
  ps.filterMap (fun p => if splitNonempty p then some (purchaseKey p) else none)

/-- App.tsx `isPersonalExpense`: an `Item:` note with no matching shared
purchase. -/
def isPersonalExpense (keys : List String) (e : Expense) : Bool :=
  match e.note with
  | none => false
  | some note =>
    if hasItemTag note = false then false
    else !(isExpenseDuplicate e keys)

/-- One expense-loop step for App.tsx's `generalSpendingMap`. -/
def appGeneralStep (keys : List String) (f : String → ℚ) (e : Expense) : String → ℚ :=
  if e.type = ExpenseType.SETTLEMENT then f
  else if !(isExpenseDuplicate e keys) && !(isPersonalExpense keys e) then
    addQ f e.name e.amount
  else f

/-- One expense-loop step for App.tsx's `totalPaidMap` (every non-settlement
expense counts). -/
def appTotalPaidStep (f : String → ℚ) (e : Expense) : String → ℚ :=
  if e.type = ExpenseType.SETTLEMENT then f else addQ f e.name e.amount

/-- App.tsx `hasMatchingExpense`: some non-settlement expense of the payer
whose `Item:` note names the purchase's item and whose amount is within
`0.01`. -/
def hasMatchingExpense (es : List Expense) (p : SharedPurchase) : Bool :=
  es.any (fun e =>
    if e.name ≠ p.payer ∨ e.type = ExpenseType.SETTLEMENT then false
    else
      match e.note with
      | none => false
      | some note =>
        if hasItemTag note = false then false
        else
          match itemTagMatch note with
          | none => false
          | some item =>
            decide (item = strOf (lowerChars p.itemName)) && decide (|e.amount - p.amount| < 1 / 100))

/-- App.tsx `generalSpendingMap` after both loops: the purchase loop also
routes split purchases with no matching expense into the equal-split pool. -/
def appGeneralSpendingOf (keys : List String) (es : List Expense)
    (ps : List SharedPurchase) : String → ℚ :=
  ps.foldl
    (fun f p =>
      if splitNonempty p && !(hasMatchingExpense es p) then addQ f p.payer p.amount else f)
    (es.foldl (appGeneralStep keys) (fun _ => 0))

/-- App.tsx `totalPaidMap` after both loops ("Total Paid"): every
non-settlement expense plus every purchase with no matching expense. -/
def appTotalPaidOf (es : List Expense) (ps : List SharedPurchase) : String → ℚ :=
  ps.foldl
    (fun f p => if hasMatchingExpense es p then f else addQ f p.payer p.amount)
    (es.foldl appTotalPaidStep (fun _ => 0))

/-- App.tsx `sharedPurchaseDebts`: only legacy no-split purchases. -/
def appSharedDebtsOf (ps : List SharedPurchase) : String → ℚ :=
  ps.foldl (fun f p => if splitNonempty p then f else legacyDebtStep f p) (fun _ => 0)

/-- The pairwise debt computed inside App.tsx's due-breakdown loop (lines
429-444).  Note it reads `sharedPurchaseDebts` in one direction only, and
the loop evaluates it only for `other.name ≠ roommateName`. -/
def appDebt (roommates : List String) (es : List Expense) (ps : List SharedPurchase)
    (i j : String) : ℚ :=
  let keys := appGetLikelyItemSplitKeys ps
  let general := appGeneralSpendingOf keys es ps
  (general j / roommates.length - general i / roommates.length)
    - directPaymentsOf es (pairKey i j) + directPaymentsOf es (pairKey j i)
    + appSharedDebtsOf ps (pairKey i j)

/-! ## Sum characterizations

Closed-form sums used to state what the map folds accumulate. -/

/-- Sum of `val a` over the elements of the list satisfying `cond` whose
key is `x`. -/
def condKeySum {α : Type} (cond : α → Bool) (key : α → String) (val : α → ℚ)
    (x : String) : List α → ℚ
  | [] => 0
  | a :: l => (if cond a = true ∧ key a = x then val a else 0) + condKeySum cond key val x l

/-- What `spendingMap` accumulates for `x`: the non-settlement,
non-duplicate expense amounts paid by `x`. -/
def expShareSum (keys : List String) (x : String) (es : List Expense) : ℚ :=
  condKeySum (fun e => decide (e.type ≠ ExpenseType.SETTLEMENT) && !(isExpenseDuplicate e keys))
    (fun e => e.name) (fun e => e.amount) x es

/-- Every non-settlement expense amount paid by `x`, duplicates included. -/
def expAllSum (x : String) (es : List Expense) : ℚ :=
  condKeySum (fun e => decide (e.type ≠ ExpenseType.SETTLEMENT))
    (fun e => e.name) (fun e => e.amount) x es

/-- Every purchase amount paid by `x`. -/
def purchasePaySum (x : String) (ps : List SharedPurchase) : ℚ :=
  condKeySum (fun _ => true) (fun p => p.payer) (fun p => p.amount) x ps

/-- Every purchase amount paid by `x` whose purchase has no matching
expense (what App.tsx's purchase loop adds to `totalPaidMap`). -/
def unmatchedPurchaseSum (es : List Expense) (x : String) (ps : List SharedPurchase) : ℚ :=
  condKeySum (fun p => !(hasMatchingExpense es p)) (fun p => p.payer) (fun p => p.amount) x ps

/-- The display-spend formula asserted by the specification: every
non-settlement Expense amount paid by the participant, duplicate-flagged
or not, plus every SharedPurchase amount where they are the payer.
Stated from the spec's words, for comparison with the code. -/
def claimedDisplaySpend (x : String) (es : List Expense) (ps : List SharedPurchase) : ℚ :=
  expAllSum x es + purchasePaySum x ps

/-- The per-purchase share a debtor owes a creditor across a purchase list,
as the instruction generator enumerates it. -/
def owedShareSum (debtor creditor : String) : List SharedPurchase → ℚ
  | [] => 0
  | p :: ps =>
    (if p.payer = creditor then
      match p.splitBetween with
      | some l =>
        if l.isEmpty then
          if p.buyer = debtor ∧ debtor ≠ creditor then p.amount else 0
        else
          if debtor ∈ l ∧ debtor ≠ creditor then perPersonOf p l else 0
      | none => if p.buyer = debtor ∧ debtor ≠ creditor then p.amount else 0
     else 0) + owedShareSum debtor creditor ps

/-- The total of a details list's `amount` column. -/
def detailsSum (l : List ExpenseDetail) : ℚ :=
  (l.map (fun d => d.amount)).sum

/-! ## Concrete inputs used by the counterexamples and witnesses -/

/-- The deduplication scenario of spec §8: the auto-generated expense
shadowing a shared purchase. -/
def eRice : Expense :=
  { name := "A", «to» := none, type := ExpenseType.GROCERY, date := "2024-01-05"
    amount := 120, note := some "Item: Rice" }

def pRice : SharedPurchase :=
  { itemName := "Rice", amount := 120, buyer := "A", payer := "A", date := "2024-01-05"
    splitBetween := some ["A", "B"], perPersonAmount := none }

/-- Two plain grocery expenses by different payers. -/
def eGroceryA : Expense :=
  { name := "A", «to» := none, type := ExpenseType.GROCERY, date := "2024-01-05"
    amount := 100, note := none }

def eGroceryB : Expense :=
  { name := "B", «to» := none, type := ExpenseType.GROCERY, date := "2024-01-07"
    amount := 40, note := none }

/-- A split purchase paid by `A` and shared by `A` and `B`. -/
def pSoap : SharedPurchase :=
  { itemName := "Soap", amount := 60, buyer := "B", payer := "A", date := "2024-01-05"
    splitBetween := some ["A", "B"], perPersonAmount := none }

/-- The single instruction emitted for roommates `A, B` on
`[eGroceryA, eGroceryB]`: `B` owes `A` the spending difference `30`, while
the details list only `A`'s Grocery share `50`. -/
def instC3 : Instruction :=
  { fromName := "B", toName := "A", amount := 30
    expenseDetails := [{ type := "Grocery", amount := 50, totalAmount := 100 }] }

/-- A settlement record with no recipient field and a note that does not
match the recovery pattern. -/
def eSettleNoTo : Expense :=
  { name := "B", «to» := none, type := ExpenseType.SETTLEMENT, date := "2024-01-06"
    amount := 50, note := some "paid back" }

/-! # Theorems -/

/-- Sanity: `fix2` computes exactly the ECMA `toFixed(2)` cent count
`⌊q * 100 + 1/2⌋`. -/
theorem fix2_eq_floor (q : ℚ) : fix2 q = ⌊q * 100 + 1 / 2⌋ := by
  have hd0 : (0 : ℚ) < (q.den : ℚ) := by exact_mod_cast q.pos
  have hnum : (q.num : ℚ) = q * (q.den : ℚ) :=
    (div_eq_iff (ne_of_gt hd0)).mp (Rat.num_div_den q)
  have hq : q * 100 + 1 / 2
      = (((200 * q.num + (q.den : ℤ)) : ℤ) : ℚ) / (((2 * q.den : ℕ)) : ℚ) := by
    rw [eq_div_iff (by positivity)]
    push_cast
    rw [hnum]
    ring
  rw [fix2, hq, Rat.floor_intCast_div_natCast]
  push_cast
  ring_nf

/-- C1.  For all aggregate maps and names, `getDebt i j` equals
`(equalShare j - equalShare i) / N` plus the item debts `i → j` minus those
`j → i`, minus the direct payments `i → j` plus those `j → i` (missing map
entries read as zero on the zero-defaulted maps), and `getDebt i i = 0`. -/
theorem getDebt_matches_spec_formula (m : ℕ)
    (spending payments sharedDebts : String → ℚ) (i j : String) :
    getDebt m i j spending payments sharedDebts
        = (spending j - spending i) / (m : ℚ)
          + (sharedDebts (pairKey i j) - sharedDebts (pairKey j i))
          - payments (pairKey i j) + payments (pairKey j i)
      ∧ getDebt m i i spending payments sharedDebts = 0 := by
  constructor
  · by_cases h : i = j
    · subst h
      unfold getDebt
      rw [if_pos rfl]
      ring
    · unfold getDebt
      rw [if_neg h, sub_div]
      ring
  · unfold getDebt
    rw [if_pos rfl]

/-- Helper: `getDebt` is exactly antisymmetric. -/
theorem getDebt_neg (m : ℕ) (spending payments sharedDebts : String → ℚ) (i j : String) :
    getDebt m i j spending payments sharedDebts
      = -(getDebt m j i spending payments sharedDebts) := by
  by_cases hij : i = j
  · subst hij
    unfold getDebt
    rw [if_pos rfl]
    ring
  · have hji : ¬ j = i := fun hh => hij hh.symm
    unfold getDebt
    rw [if_neg hij, if_neg hji]
    ring

/-- C2.  For every pair of names over any fixed aggregates, `debt(i, j)`
is the negation of `debt(j, i)` within `1e-2` — in fact exactly, so the
epsilon bound holds a fortiori. -/
theorem getDebt_antisymm_within_eps (m : ℕ)
    (spending payments sharedDebts : String → ℚ) (i j : String) :
    |getDebt m i j spending payments sharedDebts
        - -(getDebt m j i spending payments sharedDebts)| ≤ 1 / 100 := by
  rw [getDebt_neg m spending payments sharedDebts i j]
  norm_num

/-- C6, counterexample.  With an empty participant list the divisor the
code declares is `0`, not `max 1 0 = 1`: no flooring to `1` exists. -/
theorem divisor_not_max_one_cex :
    settlementDivisor [] = 0
      ∧ max 1 (List.length ([] : List String)) = 1
      ∧ settlementDivisor [] ≠ max 1 (List.length ([] : List String)) := by
  decide

/-- C6, amended.  The divisor is plainly `participants.length`; the empty
case is excluded by the component's early return, so whenever the matrix is
computed the divisor is at least `1` and coincides with
`max(1, participants.length)` — the division is never by zero. -/
theorem divisor_guarded_by_early_return (roommates : List String)
    (h : settlementMatrixComputes roommates = true) :
    settlementDivisor roommates = roommates.length
      ∧ 1 ≤ settlementDivisor roommates
      ∧ settlementDivisor roommates = max 1 roommates.length := by
  cases roommates with
  | nil => simp [settlementMatrixComputes] at h
  | cons a l =>
    refine ⟨rfl, ?_, ?_⟩
    · simp [settlementDivisor]
    · simp only [settlementDivisor, List.length_cons]
      omega

/-- C6, witness for the amended theorem at the one-roommate list. -/
theorem divisor_guarded_by_early_return_witness :
    settlementMatrixComputes ["A"] = true
      ∧ (settlementDivisor ["A"] = List.length ["A"]
          ∧ 1 ≤ settlementDivisor ["A"]
          ∧ settlementDivisor ["A"] = max 1 (List.length ["A"])) :=
  ⟨by decide, divisor_guarded_by_early_return ["A"] (by decide)⟩

/-- C5.  In the spec §8 deduplication scenario — an Expense noted
`"Item: Rice"` by payer `A` for `120` alongside a SharedPurchase of
`"Rice"` for `120` paid by `A` and split between `A` and `B` — the expense
contributes nothing to `A`'s equal-split pool, and `A`'s display spend
holds the `120` exactly once. -/
theorem dedup_rice_example :
    (calculateSettlements [eRice] [pRice]).purchaseSpending "A" = 0
      ∧ (calculateSettlements [eRice] [pRice]).purchaseSpendingDisplay "A" = 120 := by
  have hdup : isExpenseDuplicate eRice (getLikelyItemSplitKeys [pRice]) = true := by decide
  have htype : (eRice.type = ExpenseType.SETTLEMENT) = False := by simp [eRice]
  constructor
  · simp [calculateSettlements, spendingOf, List.foldl, spendingStep, htype, hdup]
  · simp [calculateSettlements, displayOf, List.foldl, spendingStep, htype, hdup, addQ,
      show pRice.payer = "A" from rfl, show pRice.amount = (120 : ℚ) from rfl]

/-- C9.  On the input with roommates `A, B, C`, no expenses, and the single
split purchase `pSoap` (`60` paid by `A`, split between `A` and `B`), the
SettlementMatrix pipeline and the App.tsx roommate-history pipeline
disagree on the debt of the pair `(B, A)`: the former routes the purchase
into pairwise item debts (`B` owes `A` `30`), the latter into the
equal-split pool (`B` owes `A` `20`). -/
theorem matrix_vs_history_debt_differ :
    matrixDebt ["A", "B", "C"] [] [pSoap] "B" "A" = 30
      ∧ appDebt ["A", "B", "C"] [] [pSoap] "B" "A" = 20
      ∧ matrixDebt ["A", "B", "C"] [] [pSoap] "B" "A"
          ≠ appDebt ["A", "B", "C"] [] [pSoap] "B" "A" := by
  have hsm : matrixDebt ["A", "B", "C"] [] [pSoap] "B" "A" = 30 := by
    simp [matrixDebt, calculateSettlements, spendingOf, directPaymentsOf,
      sharedPurchaseDebtsOf, List.foldl, sharedDebtStep, legacyDebtStep, addQ, getDebt,
      pairKey, perPersonOf,
      show pSoap.splitBetween = some ["A", "B"] from rfl,
      show pSoap.payer = "A" from rfl,
      show pSoap.amount = (60 : ℚ) from rfl,
      show pSoap.perPersonAmount = none from rfl]
    norm_num
  have hap : appDebt ["A", "B", "C"] [] [pSoap] "B" "A" = 20 := by
    simp [appDebt, appGeneralSpendingOf, appSharedDebtsOf, directPaymentsOf, List.foldl,
      appGeneralStep, splitNonempty, hasMatchingExpense, addQ, pairKey,
      show pSoap.splitBetween = some ["A", "B"] from rfl,
      show pSoap.payer = "A" from rfl,
      show pSoap.amount = (60 : ℚ) from rfl]
    norm_num
  refine ⟨hsm, hap, ?_⟩
  rw [hsm, hap]
  norm_num

/-- A fold ignores an element its step treats as the identity. -/
theorem foldl_skip_middle {α β : Type} (step : β → α → β) (x : α)
    (hx : ∀ b, step b x = b) (l1 l2 : List α) (init : β) :
    (l1 ++ x :: l2).foldl step init = (l1 ++ l2).foldl step init := by
  rw [List.foldl_append, List.foldl_cons, hx, ← List.foldl_append]

/-- A settlement expense is invisible to `hasMatchingExpense`. -/
theorem hasMatchingExpense_skip_settlement (es1 es2 : List Expense) (e : Expense)
    (h1 : e.type = ExpenseType.SETTLEMENT) (p : SharedPurchase) :
    hasMatchingExpense (es1 ++ e :: es2) p = hasMatchingExpense (es1 ++ es2) p := by
  unfold hasMatchingExpense
  rw [List.any_append, List.any_cons, List.any_append]
  have he : (if e.name ≠ p.payer ∨ e.type = ExpenseType.SETTLEMENT then false
      else
        match e.note with
        | none => false
        | some note =>
          if hasItemTag note = false then false
          else
            match itemTagMatch note with
            | none => false
            | some item =>
              decide (item = strOf (lowerChars p.itemName))
                && decide (|e.amount - p.amount| < 1 / 100)) = false := by
    rw [if_pos (Or.inr h1)]
  rw [he]
  simp [Bool.or_assoc]

/-- C10.  A Settlement-type expense with no recipient field and a note
that does not match `"Settlement payment to (.+)"` adds nothing to the
direct-payments map and leaves every aggregate — in both
`SettlementMatrix.tsx` and `App.tsx` — exactly as if the record were
absent. -/
theorem settlement_without_recipient_ignored
    (es1 es2 : List Expense) (ps : List SharedPurchase) (keys : List String) (e : Expense)
    (h1 : e.type = ExpenseType.SETTLEMENT) (h2 : e.«to» = none)
    (h3 : settlementToMatch e.note = none) :
    calculateSettlements (es1 ++ e :: es2) ps = calculateSettlements (es1 ++ es2) ps
      ∧ directPaymentsOf (es1 ++ e :: es2) = directPaymentsOf (es1 ++ es2)
      ∧ appTotalPaidOf (es1 ++ e :: es2) ps = appTotalPaidOf (es1 ++ es2) ps
      ∧ appGeneralSpendingOf keys (es1 ++ e :: es2) ps
          = appGeneralSpendingOf keys (es1 ++ es2) ps := by
  have hstepSp : ∀ ks (f : String → ℚ), spendingStep ks f e = f := by
    intro ks f
    unfold spendingStep
    rw [if_pos h1]
  have hstepPay : ∀ f : String → ℚ, paymentsStep f e = f := by
    intro f
    unfold paymentsStep
    rw [if_pos h1]
    simp only [resolveTo, h2, h3]
  have hstepTot : ∀ f : String → ℚ, appTotalPaidStep f e = f := by
    intro f
    unfold appTotalPaidStep
    rw [if_pos h1]
  have hstepGen : ∀ f : String → ℚ, appGeneralStep keys f e = f := by
    intro f
    unfold appGeneralStep
    rw [if_pos h1]
  have hpay : directPaymentsOf (es1 ++ e :: es2) = directPaymentsOf (es1 ++ es2) :=
    foldl_skip_middle paymentsStep e hstepPay es1 es2 (fun _ => 0)
  have hmatch : ∀ p, hasMatchingExpense (es1 ++ e :: es2) p = hasMatchingExpense (es1 ++ es2) p :=
    hasMatchingExpense_skip_settlement es1 es2 e h1
  have hsp : spendingOf (getLikelyItemSplitKeys ps) (es1 ++ e :: es2)
      = spendingOf (getLikelyItemSplitKeys ps) (es1 ++ es2) :=
    foldl_skip_middle _ e (hstepSp _) es1 es2 (fun _ => 0)
  have hdisp : displayOf (getLikelyItemSplitKeys ps) (es1 ++ e :: es2) ps
      = displayOf (getLikelyItemSplitKeys ps) (es1 ++ es2) ps := by
    unfold displayOf
    rw [foldl_skip_middle (spendingStep (getLikelyItemSplitKeys ps)) e
      (hstepSp _) es1 es2 (fun _ => 0)]
  refine ⟨?_, hpay, ?_, ?_⟩
  · simp only [calculateSettlements]
    rw [hsp, hdisp, hpay]
  · unfold appTotalPaidOf
    rw [foldl_skip_middle appTotalPaidStep e hstepTot es1 es2 (fun _ => 0)]
    have : (fun (f : String → ℚ) p =>
        if hasMatchingExpense (es1 ++ e :: es2) p then f else addQ f p.payer p.amount)
        = (fun (f : String → ℚ) p =>
        if hasMatchingExpense (es1 ++ es2) p then f else addQ f p.payer p.amount) := by
      funext f p
      rw [hmatch p]
    rw [this]
  · unfold appGeneralSpendingOf
    rw [foldl_skip_middle (appGeneralStep keys) e hstepGen es1 es2 (fun _ => 0)]
    have : (fun (f : String → ℚ) p =>
        if splitNonempty p && !(hasMatchingExpense (es1 ++ e :: es2) p) then
          addQ f p.payer p.amount
        else f)
        = (fun (f : String → ℚ) p =>
        if splitNonempty p && !(hasMatchingExpense (es1 ++ es2) p) then
          addQ f p.payer p.amount
        else f) := by
      funext f p
      rw [hmatch p]
    rw [this]

/-- C10, witness: the concrete malformed settlement record `eSettleNoTo`
is ignored on the empty surroundings. -/
theorem settlement_without_recipient_ignored_witness :
    calculateSettlements ([] ++ eSettleNoTo :: []) [] = calculateSettlements ([] ++ []) []
      ∧ directPaymentsOf ([] ++ eSettleNoTo :: []) = directPaymentsOf ([] ++ [])
      ∧ appTotalPaidOf ([] ++ eSettleNoTo :: []) [] = appTotalPaidOf ([] ++ []) []
      ∧ appGeneralSpendingOf [] ([] ++ eSettleNoTo :: []) []
          = appGeneralSpendingOf [] ([] ++ []) [] :=
  settlement_without_recipient_ignored [] [] [] [] eSettleNoTo rfl rfl (by decide)

/-- The one-step equation of `condKeySum`. -/
theorem condKeySum_cons {α : Type} (cond : α → Bool) (key : α → String) (val : α → ℚ)
    (x : String) (a : α) (l : List α) :
    condKeySum cond key val x (a :: l)
      = (if cond a = true ∧ key a = x then val a else 0) + condKeySum cond key val x l :=
  rfl

/-- Evaluating a conditional-accumulation fold at one key. -/
theorem foldl_condAdd_eval {α : Type} (cond : α → Bool) (key : α → String) (val : α → ℚ)
    (l : List α) : ∀ (f : String → ℚ) (x : String),
    (l.foldl (fun g a => if cond a then addQ g (key a) (val a) else g) f) x
      = f x + condKeySum cond key val x l := by
  induction l with
  | nil =>
    intro f x
    simp [condKeySum]
  | cons a l ih =>
    intro f x
    rw [List.foldl_cons, ih, condKeySum_cons]
    by_cases h1 : cond a = true
    · rw [if_pos h1]
      unfold addQ
      by_cases h3 : x = key a
      · rw [if_pos h3, if_pos ⟨h1, h3.symm⟩, h3]
        ring
      · rw [if_neg h3, if_neg fun hc => h3 hc.2.symm]
        ring
    · rw [if_neg h1, if_neg fun hc => h1 hc.1]
      ring

/-- The equal-split expense step in conditional-accumulation shape. -/
theorem spendingStep_shape (keys : List String) :
    spendingStep keys = fun g e =>
      if decide (e.type ≠ ExpenseType.SETTLEMENT) && !(isExpenseDuplicate e keys) then
        addQ g e.name e.amount
      else g := by
  funext g e
  unfold spendingStep
  by_cases h1 : e.type = ExpenseType.SETTLEMENT
  · simp [h1]
  · by_cases h2 : isExpenseDuplicate e keys = true
    · simp [h1, h2]
    · simp [h1, h2]

/-- The `spendingMap` holds exactly the non-settlement, non-duplicate expense
total of each name. -/
theorem spendingOf_eval (keys : List String) (es : List Expense) (x : String) :
    spendingOf keys es x = expShareSum keys x es := by
  unfold spendingOf expShareSum
  rw [spendingStep_shape, foldl_condAdd_eval]
  exact zero_add _

/-- The `spendingDisplayMap` holds the non-duplicate expense total plus every
purchase of the payer. -/
theorem displayOf_eval (keys : List String) (es : List Expense) (ps : List SharedPurchase)
    (x : String) :
    displayOf keys es ps x = expShareSum keys x es + purchasePaySum x ps := by
  unfold displayOf
  have hshape : (fun (f : String → ℚ) (p : SharedPurchase) => addQ f p.payer p.amount)
      = fun f p => if (fun (_ : SharedPurchase) => true) p then addQ f p.payer p.amount else f := by
    funext f p
    simp
  rw [hshape, foldl_condAdd_eval, spendingStep_shape, foldl_condAdd_eval]
  unfold expShareSum purchasePaySum
  rw [zero_add]

/-- App.tsx's `totalPaidMap` holds every non-settlement expense plus every
purchase with no matching expense. -/
theorem appTotalPaid_eval (es : List Expense) (ps : List SharedPurchase) (x : String) :
    appTotalPaidOf es ps x = expAllSum x es + unmatchedPurchaseSum es x ps := by
  unfold appTotalPaidOf
  have hshape : (fun (f : String → ℚ) p =>
      if hasMatchingExpense es p then f else addQ f p.payer p.amount)
      = fun (f : String → ℚ) p =>
        if !(hasMatchingExpense es p) then addQ f p.payer p.amount else f := by
    funext f p
    by_cases h : hasMatchingExpense es p = true
    · simp [h]
    · simp [h]
  have hshape2 : appTotalPaidStep = fun (f : String → ℚ) e =>
      if decide (e.type ≠ ExpenseType.SETTLEMENT) then addQ f e.name e.amount else f := by
    funext f e
    unfold appTotalPaidStep
    by_cases h : e.type = ExpenseType.SETTLEMENT
    · simp [h]
    · simp [h]
  rw [hshape, foldl_condAdd_eval, hshape2, foldl_condAdd_eval]
  unfold expAllSum unmatchedPurchaseSum
  rw [zero_add]

/-- C4, amended.  The display-spend totals count each outlay once:
`SettlementMatrix.tsx`'s "Variable Spent" is the sum of the participant's
non-settlement, **non-duplicate** expenses plus every shared purchase they
paid; `App.tsx`'s "Total Paid" is the sum of every non-settlement expense,
duplicates included, plus only the shared purchases with **no matching
expense**.  (The claim's formula — all expenses including duplicates plus
all purchases — holds for neither; see the counterexample.) -/
theorem displaySpend_characterization (es : List Expense) (ps : List SharedPurchase)
    (x : String) :
    (calculateSettlements es ps).purchaseSpendingDisplay x
        = expShareSum (getLikelyItemSplitKeys ps) x es + purchasePaySum x ps
      ∧ appTotalPaidOf es ps x = expAllSum x es + unmatchedPurchaseSum es x ps := by
  constructor
  · simp only [calculateSettlements]
    exact displayOf_eval _ es ps x
  · exact appTotalPaid_eval es ps x

/-- C4, counterexample.  In the `eRice`/`pRice` deduplication scenario both
display totals are `120`, while the claimed formula — every non-settlement
expense including the duplicate plus every purchase of the payer —
yields `240`. -/
theorem displaySpend_claimed_formula_cex :
    (calculateSettlements [eRice] [pRice]).purchaseSpendingDisplay "A" = 120
      ∧ appTotalPaidOf [eRice] [pRice] "A" = 120
      ∧ claimedDisplaySpend "A" [eRice] [pRice] = 240
      ∧ (calculateSettlements [eRice] [pRice]).purchaseSpendingDisplay "A"
          ≠ claimedDisplaySpend "A" [eRice] [pRice]
      ∧ appTotalPaidOf [eRice] [pRice] "A" ≠ claimedDisplaySpend "A" [eRice] [pRice] := by
  have hmatch : hasMatchingExpense [eRice] pRice = true := by
    unfold hasMatchingExpense
    rw [List.any_cons, List.any_nil]
    rw [if_neg (by decide : ¬(eRice.name ≠ pRice.payer ∨ eRice.type = ExpenseType.SETTLEMENT))]
    simp only [show eRice.note = some "Item: Rice" from rfl]
    rw [if_neg (by decide : ¬(hasItemTag "Item: Rice" = false))]
    simp only [show itemTagMatch "Item: Rice" = some "rice" from by decide]
    rw [decide_eq_true (by decide : ("rice" : String) = strOf (lowerChars pRice.itemName))]
    rw [decide_eq_true (show |eRice.amount - pRice.amount| < 1 / 100 by
      norm_num [eRice, pRice])]
    decide
  have hdup : isExpenseDuplicate eRice (getLikelyItemSplitKeys [pRice]) = true := by decide
  have htype : (eRice.type = ExpenseType.SETTLEMENT) = False := by simp [eRice]
  have hdisp : (calculateSettlements [eRice] [pRice]).purchaseSpendingDisplay "A" = 120 := by
    simp [calculateSettlements, displayOf, List.foldl, spendingStep, htype, hdup, addQ,
      show pRice.payer = "A" from rfl, show pRice.amount = (120 : ℚ) from rfl]
  have htot : appTotalPaidOf [eRice] [pRice] "A" = 120 := by
    simp [appTotalPaidOf, List.foldl, appTotalPaidStep, htype, hmatch, addQ,
      show eRice.name = "A" from rfl, show eRice.amount = (120 : ℚ) from rfl]
  have hclaim : claimedDisplaySpend "A" [eRice] [pRice] = 240 := by
    simp only [claimedDisplaySpend, expAllSum, purchasePaySum, condKeySum,
      decide_eq_true_eq, reduceCtorEq, show eRice.type = ExpenseType.GROCERY from rfl,
      show eRice.name = "A" from rfl, show eRice.amount = (120 : ℚ) from rfl,
      show pRice.payer = "A" from rfl, show pRice.amount = (120 : ℚ) from rfl]
    rw [if_pos (show ExpenseType.GROCERY ≠ ExpenseType.SETTLEMENT ∧ True from by decide),
      if_pos (show True ∧ True from ⟨trivial, trivial⟩)]
    norm_num
  refine ⟨hdisp, htot, hclaim, ?_, ?_⟩
  · rw [hdisp, hclaim]
    norm_num
  · rw [htot, hclaim]
    norm_num

/-- Membership in the generated instruction list: exactly the index pairs
`i ≠ j` whose debt exceeds the `0.01` threshold, carrying that debt as the
amount and the built provenance details. -/
theorem mem_getSettlementInstructions (m : ℕ) (roommates : List String)
    (sp pay sh : String → ℚ) (es : List Expense) (ps : List SharedPurchase)
    (inst : Instruction) :
    inst ∈ getSettlementInstructions m roommates sp pay sh es ps ↔
      ∃ i j : ℕ, i < roommates.length ∧ j < roommates.length ∧ i ≠ j
        ∧ getDebt m (roommates.getD i "") (roommates.getD j "") sp pay sh > 1 / 100
        ∧ inst = { fromName := roommates.getD i "", toName := roommates.getD j ""
                   amount := getDebt m (roommates.getD i "") (roommates.getD j "") sp pay sh
                   expenseDetails := buildDetails m (roommates.getD i "") (roommates.getD j "")
                     (getLikelyItemSplitKeys ps) es ps } := by
  unfold getSettlementInstructions
  simp only [List.mem_flatMap, List.mem_filterMap, List.mem_range]
  constructor
  · rintro ⟨i, hi, j, hj, hcond⟩
    by_cases hij : i = j
    · rw [if_pos hij] at hcond
      exact absurd hcond (by simp)
    · rw [if_neg hij] at hcond
      by_cases hd : getDebt m (roommates.getD i "") (roommates.getD j "") sp pay sh > 1 / 100
      · rw [if_pos hd, Option.some.injEq] at hcond
        exact ⟨i, j, hi, hj, hij, hd, hcond.symm⟩
      · rw [if_neg hd] at hcond
        exact absurd hcond (by simp)
  · rintro ⟨i, j, hi, hj, hij, hd, rfl⟩
    refine ⟨i, hi, j, hj, ?_⟩
    rw [if_neg hij]
    rw [if_pos hd]

/-- The emission condition packaged by names (shared helper): an
instruction from `a` to `b` exists iff both names are in the roommate list
and `debt(a, b)` exceeds the threshold (so never for `a = b`). -/
theorem emitted_iff (m : ℕ) (roommates : List String)
    (sp pay sh : String → ℚ) (es : List Expense) (ps : List SharedPurchase) (a b : String) :
    (∃ inst ∈ getSettlementInstructions m roommates sp pay sh es ps,
        inst.fromName = a ∧ inst.toName = b)
      ↔ (a ∈ roommates ∧ b ∈ roommates ∧ a ≠ b ∧ getDebt m a b sp pay sh > 1 / 100) := by
  constructor
  · rintro ⟨inst, hmem, hfa, htb⟩
    obtain ⟨i, j, hi, hj, hij, hd, rfl⟩ :=
      (mem_getSettlementInstructions m roommates sp pay sh es ps inst).mp hmem
    simp only at hfa htb
    subst hfa
    subst htb
    have hamem : roommates.getD i "" ∈ roommates := by
      rw [List.getD_eq_getElem _ _ hi]
      exact List.getElem_mem hi
    have hbmem : roommates.getD j "" ∈ roommates := by
      rw [List.getD_eq_getElem _ _ hj]
      exact List.getElem_mem hj
    refine ⟨hamem, hbmem, ?_, hd⟩
    intro hab
    rw [hab] at hd
    unfold getDebt at hd
    rw [if_pos rfl] at hd
    norm_num at hd
  · rintro ⟨ha, hb, hab, hd⟩
    obtain ⟨i, hi, hia⟩ := List.getElem_of_mem ha
    obtain ⟨j, hj, hjb⟩ := List.getElem_of_mem hb
    have hga : roommates.getD i "" = a := by
      rw [List.getD_eq_getElem _ _ hi, hia]
    have hgb : roommates.getD j "" = b := by
      rw [List.getD_eq_getElem _ _ hj, hjb]
    have hij : i ≠ j := by
      intro hh
      apply hab
      rw [← hga, ← hgb, hh]
    refine ⟨_, (mem_getSettlementInstructions m roommates sp pay sh es ps _).mpr
      ⟨i, j, hi, hj, hij, ?_, rfl⟩, ?_, ?_⟩
    · rw [hga, hgb]
      exact hd
    · exact hga
    · exact hgb

/-- C7.  An instruction from `a` to `b` is emitted exactly when both are
participants and `debt(a, b) > 0.01` (pairs with `|debt| ≤ 0.01` are
suppressed, and `a = b` never emits); and for no unordered pair are both
directions emitted. -/
theorem instructions_emitted_iff_debt_above_threshold (m : ℕ) (roommates : List String)
    (sp pay sh : String → ℚ) (es : List Expense) (ps : List SharedPurchase) (a b : String) :
    ((∃ inst ∈ getSettlementInstructions m roommates sp pay sh es ps,
        inst.fromName = a ∧ inst.toName = b)
      ↔ (a ∈ roommates ∧ b ∈ roommates ∧ a ≠ b ∧ getDebt m a b sp pay sh > 1 / 100))
    ∧ ¬((∃ inst ∈ getSettlementInstructions m roommates sp pay sh es ps,
          inst.fromName = a ∧ inst.toName = b)
        ∧ (∃ inst ∈ getSettlementInstructions m roommates sp pay sh es ps,
          inst.fromName = b ∧ inst.toName = a)) := by
  refine ⟨emitted_iff m roommates sp pay sh es ps a b, ?_⟩
  rintro ⟨hab, hba⟩
  obtain ⟨-, -, -, hdab⟩ := (emitted_iff m roommates sp pay sh es ps a b).mp hab
  obtain ⟨-, -, -, hdba⟩ := (emitted_iff m roommates sp pay sh es ps b a).mp hba
  rw [getDebt_neg] at hdab
  linarith

/-- In-place group accumulation adds the new amount to the value total. -/
theorem updGroup_snd_sum (g : List (ExpenseType × ℚ)) (t : ExpenseType) (a : ℚ) :
    ((updGroup g t a).map Prod.snd).sum = (g.map Prod.snd).sum + a := by
  induction g with
  | nil => simp [updGroup]
  | cons p g ih =>
    obtain ⟨t', a'⟩ := p
    unfold updGroup
    by_cases h : t' = t
    · rw [if_pos h]
      simp
      ring
    · rw [if_neg h]
      simp [ih]
      ring

/-- Grouping by type preserves the amount total. -/
theorem groupByType_snd_sum (es : List Expense) :
    ((groupByType es).map Prod.snd).sum = (es.map (fun e => e.amount)).sum := by
  suffices h : ∀ g : List (ExpenseType × ℚ),
      (((es.foldl (fun g e => updGroup g e.type e.amount) g)).map Prod.snd).sum
        = (g.map Prod.snd).sum + (es.map (fun e => e.amount)).sum by
    simpa [groupByType] using h []
  induction es with
  | nil =>
    intro g
    simp
  | cons e es ih =>
    intro g
    rw [List.foldl_cons, ih, updGroup_snd_sum]
    simp
    ring

/-- Dividing each summand divides the sum. -/
theorem sum_map_div (l : List ℚ) (c : ℚ) :
    (l.map (fun q => q / c)).sum = l.sum / c := by
  induction l with
  | nil => simp
  | cons q l ih => simp [ih, add_div]

/-- A key-and-condition filter sums to `condKeySum`. -/
theorem filter_sum_eq_condKeySum {α : Type} (cond : α → Bool) (key : α → String)
    (val : α → ℚ) (x : String) (l : List α) :
    ((l.filter (fun a => decide (key a = x) && cond a)).map val).sum
      = condKeySum cond key val x l := by
  induction l with
  | nil => simp [condKeySum]
  | cons a l ih =>
    rw [List.filter_cons, condKeySum_cons]
    by_cases hk : key a = x
    · by_cases hc : cond a = true
      · simp [hk, hc, ih]
      · simp [hk, hc, ih]
    · simp [hk, ih]

/-- The details filter collects exactly the amounts `spendingMap`
accumulated for the creditor. -/
theorem colExpenses_sum (keys : List String) (x : String) (es : List Expense) :
    ((colExpenses keys x es).map (fun e => e.amount)).sum = expShareSum keys x es := by
  unfold colExpenses expShareSum
  exact filter_sum_eq_condKeySum
    (fun e => decide (e.type ≠ ExpenseType.SETTLEMENT) && !(isExpenseDuplicate e keys))
    (fun e => e.name) (fun e => e.amount) x es

/-- The one-step equation of `owedShareSum`. -/
theorem owedShareSum_cons (d c : String) (p : SharedPurchase) (ps : List SharedPurchase) :
    owedShareSum d c (p :: ps)
      = (if p.payer = c then
          match p.splitBetween with
          | some l =>
            if l.isEmpty then
              if p.buyer = d ∧ d ≠ c then p.amount else 0
            else
              if d ∈ l ∧ d ≠ c then perPersonOf p l else 0
          | none => if p.buyer = d ∧ d ≠ c then p.amount else 0
         else 0) + owedShareSum d c ps :=
  rfl

/-- The per-purchase detail lines sum to the enumerated owed shares. -/
theorem purchaseDetails_sum (d c : String) (ps : List SharedPurchase) :
    ((ps.filterMap (purchaseDetail d c)).map (fun dd => dd.amount)).sum
      = owedShareSum d c ps := by
  induction ps with
  | nil => simp [owedShareSum]
  | cons p ps ih =>
    rw [List.filterMap_cons, owedShareSum_cons]
    by_cases hpay : p.payer = c
    · have hnn : ¬ (p.payer ≠ c) := fun h => h hpay
      rw [if_pos hpay]
      cases hsb : p.splitBetween with
      | none =>
        by_cases hbd : p.buyer = d ∧ d ≠ c
        · have hd : purchaseDetail d c p
              = some { type := "Specific/Split Items", amount := p.amount
                       totalAmount := p.amount } := by
            unfold purchaseDetail
            rw [if_neg hnn]
            simp only [hsb]
            rw [if_pos hbd]
          simp only [hd, if_pos hbd, List.map_cons, List.sum_cons, ih]
        · have hd : purchaseDetail d c p = none := by
            unfold purchaseDetail
            rw [if_neg hnn]
            simp only [hsb]
            rw [if_neg hbd]
          simp only [hd, if_neg hbd, ih]
          ring
      | some l =>
        by_cases hl : l.isEmpty = true
        · by_cases hbd : p.buyer = d ∧ d ≠ c
          · have hd : purchaseDetail d c p
                = some { type := "Specific/Split Items", amount := p.amount
                         totalAmount := p.amount } := by
              unfold purchaseDetail
              rw [if_neg hnn]
              simp only [hsb]
              rw [if_pos hl, if_pos hbd]
            simp only [hd, if_pos hl, if_pos hbd, List.map_cons, List.sum_cons, ih]
          · have hd : purchaseDetail d c p = none := by
              unfold purchaseDetail
              rw [if_neg hnn]
              simp only [hsb]
              rw [if_pos hl, if_neg hbd]
            simp only [hd, if_pos hl, if_neg hbd, ih]
            ring
        · by_cases hmem : d ∈ l ∧ d ≠ c
          · have hd : purchaseDetail d c p
                = some { type := "Specific/Split Items", amount := perPersonOf p l
                         totalAmount := p.amount } := by
              unfold purchaseDetail
              rw [if_neg hnn]
              simp only [hsb]
              rw [if_neg hl, if_pos hmem]
            simp only [hd, if_neg hl, if_pos hmem, List.map_cons, List.sum_cons, ih]
          · have hd : purchaseDetail d c p = none := by
              unfold purchaseDetail
              rw [if_neg hnn]
              simp only [hsb]
              rw [if_neg hl, if_neg hmem]
            simp only [hd, if_neg hl, if_neg hmem, ih]
            ring
    · have hd : purchaseDetail d c p = none := by
        unfold purchaseDetail
        rw [if_pos hpay]
      rw [if_neg hpay]
      simp only [hd, ih]
      ring

/-- The total of a built details list: the creditor's equal-split pool
over `m` plus the enumerated owed purchase shares. -/
theorem detailsSum_buildDetails (m : ℕ) (d c : String) (keys : List String)
    (es : List Expense) (ps : List SharedPurchase) :
    detailsSum (buildDetails m d c keys es ps)
      = expShareSum keys c es / m + owedShareSum d c ps := by
  unfold detailsSum buildDetails
  rw [List.map_append, List.sum_append]
  have h1 : (((groupByType (colExpenses keys c es)).map
        (fun ta => ({ type := ta.1.label, amount := ta.2 / m, totalAmount := ta.2 }
          : ExpenseDetail))).map (fun dd => dd.amount)).sum
      = expShareSum keys c es / m := by
    rw [List.map_map]
    have hcomp : ((fun dd : ExpenseDetail => dd.amount)
          ∘ (fun ta : ExpenseType × ℚ =>
            ({ type := ta.1.label, amount := ta.2 / m, totalAmount := ta.2 } : ExpenseDetail)))
        = (fun q => q / (m : ℚ)) ∘ Prod.snd := rfl
    rw [hcomp, ← List.map_map, sum_map_div, groupByType_snd_sum, colExpenses_sum]
  rw [h1, purchaseDetails_sum]

/-- C3, amended.  The details of every emitted instruction sum to the
creditor's equal-split pool divided by `N` plus the per-purchase shares the
debtor owes the creditor — not to the emitted amount: the amount further
subtracts the debtor's own pool over `N`, the debtor's settlement payments
to the creditor (net of the creditor's), and the reverse item debts, none
of which appear as details.  (The claim as stated fails; see the
counterexample.) -/
theorem settlement_instruction_details_characterization
    (roommates : List String) (es : List Expense) (ps : List SharedPurchase)
    (inst : Instruction) (h : inst ∈ settlementInstructionsAll roommates es ps) :
    detailsSum inst.expenseDetails
      = (calculateSettlements es ps).purchaseSpending inst.toName / roommates.length
        + owedShareSum inst.fromName inst.toName ps := by
  unfold settlementInstructionsAll at h
  obtain ⟨i, j, hi, hj, hij, hd, rfl⟩ :=
    (mem_getSettlementInstructions _ _ _ _ _ _ _ _).mp h
  simp only
  rw [detailsSum_buildDetails]
  simp only [calculateSettlements]
  rw [spendingOf_eval]

/-- Full evaluation of the pipeline on roommates `A, B` with the two
grocery expenses: exactly one instruction is emitted, `B → A` for `30`,
detailing only `A`'s Grocery share of `50`. -/
theorem instructionsC3_eval :
    settlementInstructionsAll ["A", "B"] [eGroceryA, eGroceryB] [] = [instC3] := by
  have hdupA : isExpenseDuplicate eGroceryA [] = false := by decide
  have hdupB : isExpenseDuplicate eGroceryB [] = false := by decide
  have hsA : spendingOf [] [eGroceryA, eGroceryB] "A" = 100 := by
    simp [spendingOf, List.foldl, spendingStep, addQ, hdupA, hdupB,
      show eGroceryA.type = ExpenseType.GROCERY from rfl,
      show eGroceryB.type = ExpenseType.GROCERY from rfl,
      show eGroceryA.name = "A" from rfl, show eGroceryB.name = "B" from rfl,
      show eGroceryA.amount = (100 : ℚ) from rfl, show eGroceryB.amount = (40 : ℚ) from rfl]
  have hsB : spendingOf [] [eGroceryA, eGroceryB] "B" = 40 := by
    simp [spendingOf, List.foldl, spendingStep, addQ, hdupA, hdupB,
      show eGroceryA.type = ExpenseType.GROCERY from rfl,
      show eGroceryB.type = ExpenseType.GROCERY from rfl,
      show eGroceryA.name = "A" from rfl, show eGroceryB.name = "B" from rfl,
      show eGroceryA.amount = (100 : ℚ) from rfl, show eGroceryB.amount = (40 : ℚ) from rfl]
  have hpay : ∀ k, directPaymentsOf [eGroceryA, eGroceryB] k = 0 := by
    intro k
    simp [directPaymentsOf, List.foldl, paymentsStep,
      show eGroceryA.type = ExpenseType.GROCERY from rfl,
      show eGroceryB.type = ExpenseType.GROCERY from rfl]
  have hsh : ∀ k, sharedPurchaseDebtsOf [] k = 0 := fun _ => rfl
  have hd1 : getDebt 2 "B" "A" (spendingOf [] [eGroceryA, eGroceryB])
      (directPaymentsOf [eGroceryA, eGroceryB]) (sharedPurchaseDebtsOf []) = 30 := by
    unfold getDebt
    rw [if_neg (by decide : ¬(("B" : String) = "A"))]
    simp only [hsA, hsB, hpay, hsh]
    norm_num
  have hd2 : getDebt 2 "A" "B" (spendingOf [] [eGroceryA, eGroceryB])
      (directPaymentsOf [eGroceryA, eGroceryB]) (sharedPurchaseDebtsOf []) = -30 := by
    unfold getDebt
    rw [if_neg (by decide : ¬(("A" : String) = "B"))]
    simp only [hsA, hsB, hpay, hsh]
    norm_num
  have hbd : buildDetails 2 "B" "A" [] [eGroceryA, eGroceryB] []
      = [{ type := "Grocery", amount := 50, totalAmount := 100 }] := by
    have hcol : colExpenses [] "A" [eGroceryA, eGroceryB] = [eGroceryA] := by decide
    simp only [buildDetails, hcol, groupByType, List.foldl, updGroup, List.map_cons,
      List.map_nil, List.filterMap_nil, List.append_nil, ExpenseType.label,
      show eGroceryA.type = ExpenseType.GROCERY from rfl,
      show eGroceryA.amount = (100 : ℚ) from rfl]
    norm_num
  simp only [settlementInstructionsAll, calculateSettlements, getSettlementInstructions,
    getLikelyItemSplitKeys, List.map_nil]
  simp only [show List.length ["A", "B"] = 2 from rfl,
    show List.range 2 = [0, 1] from by decide,
    List.flatMap_cons, List.flatMap_nil, List.filterMap_cons, List.filterMap_nil,
    List.append_nil,
    show List.getD ["A", "B"] 0 "" = "A" from rfl,
    show List.getD ["A", "B"] 1 "" = "B" from rfl,
    hd1, hd2]
  simp [instC3, hbd, show ¬((1 : ℚ) / 100 < -30) from by norm_num,
    show (1 : ℚ) / 100 < 30 from by norm_num,
    show ¬((100 : ℚ)⁻¹ < -30) from by norm_num,
    show (100 : ℚ)⁻¹ < 30 from by norm_num]

/-- C3, counterexample.  On roommates `A, B` with `A` logging Grocery `100`
and `B` logging Grocery `40`, the single emitted instruction has amount
`30` but its provenance details sum to `50`: the sum differs from the
amount by far more than epsilon. -/
theorem settlement_instruction_details_sum_cex :
    settlementInstructionsAll ["A", "B"] [eGroceryA, eGroceryB] [] = [instC3]
      ∧ detailsSum instC3.expenseDetails = 50
      ∧ instC3.amount = 30
      ∧ ¬(|detailsSum instC3.expenseDetails - instC3.amount| ≤ 1 / 100) := by
  refine ⟨instructionsC3_eval, ?_, rfl, ?_⟩
  · simp [detailsSum, instC3]
  · simp [detailsSum, instC3]
    norm_num

/-- C3, witness for the amended characterization at the concrete emitted
instruction. -/
theorem settlement_instruction_details_characterization_witness :
    detailsSum instC3.expenseDetails
      = (calculateSettlements [eGroceryA, eGroceryB] []).purchaseSpending instC3.toName
          / (List.length ["A", "B"] : ℚ)
        + owedShareSum instC3.fromName instC3.toName [] :=
  settlement_instruction_details_characterization ["A", "B"] [eGroceryA, eGroceryB] [] instC3
    (by
      rw [instructionsC3_eval]
      exact List.mem_singleton.mpr rfl)

/-- Filtering by a month every record belongs to is the identity. -/
theorem filterExpensesByMonth_all (es : List Expense) (μ : String)
    (h : ∀ e ∈ es, getMonthYear e.date = μ) : filterExpensesByMonth es μ = es := by
  unfold filterExpensesByMonth
  apply List.filter_eq_self.mpr
  intro e he
  rw [beq_iff_eq]
  exact h e he

/-- Filtering purchases by a month every record belongs to is the
identity. -/
theorem filterPurchasesByMonth_all (ps : List SharedPurchase) (μ : String)
    (h : ∀ p ∈ ps, getMonthYear p.date = μ) : filterPurchasesByMonth ps μ = ps := by
  unfold filterPurchasesByMonth
  apply List.filter_eq_self.mpr
  intro p hp
  rw [beq_iff_eq]
  exact h p hp

/-- When every expense is in month `μ ≠ ""`, that is the unique month. -/
theorem getUniqueMonths_single (es : List Expense) (μ : String) (hne : es ≠ [])
    (hμ : μ ≠ "") (h : ∀ e ∈ es, getMonthYear e.date = μ) :
    getUniqueMonths es = [μ] := by
  unfold getUniqueMonths
  have hfold : ∀ l : List Expense, (∀ e ∈ l, getMonthYear e.date = μ) →
      l.foldl (fun acc e => insertMonthAcc acc e.date) [μ] = [μ] := by
    intro l
    induction l with
    | nil =>
      intro _
      rfl
    | cons e l ih =>
      intro hl
      rw [List.foldl_cons]
      have hstep : insertMonthAcc [μ] e.date = [μ] := by
        simp only [insertMonthAcc]
        rw [hl e (List.mem_cons_self e l)]
        rw [if_neg hμ, if_pos (List.mem_singleton.mpr rfl)]
      rw [hstep]
      exact ih fun e' he' => hl e' (List.mem_cons_of_mem e he')
  cases es with
  | nil => exact absurd rfl hne
  | cons e es =>
    rw [List.foldl_cons]
    have h1 : insertMonthAcc [] e.date = [μ] := by
      simp only [insertMonthAcc]
      rw [h e (List.mem_cons_self e es)]
      rw [if_neg hμ, if_neg (List.not_mem_nil μ)]
      rfl
    rw [h1, hfold es fun e' he' => h e' (List.mem_cons_of_mem e he')]
    rfl

/-- C8.  If every expense and purchase falls in the same calendar month
`μ` (and the dataset is non-empty so the month appears), the monthly
breakdown lists exactly that month, and its instructions coincide with the
all-time instructions. -/
theorem monthly_reconciliation (roommates : List String) (es : List Expense)
    (ps : List SharedPurchase) (μ : String) (hne : es ≠ []) (hμ : μ ≠ "")
    (he : ∀ e ∈ es, getMonthYear e.date = μ) (hp : ∀ p ∈ ps, getMonthYear p.date = μ) :
    getUniqueMonths es = [μ]
      ∧ monthlyInstructions roommates es ps μ = settlementInstructionsAll roommates es ps := by
  refine ⟨getUniqueMonths_single es μ hne hμ he, ?_⟩
  unfold monthlyInstructions settlementInstructionsAll
  rw [filterExpensesByMonth_all es μ he, filterPurchasesByMonth_all ps μ hp]

/-- C8, witness on the two January-2024 grocery expenses. -/
theorem monthly_reconciliation_witness :
    getUniqueMonths [eGroceryA, eGroceryB] = ["01-2024"]
      ∧ monthlyInstructions ["A", "B"] [eGroceryA, eGroceryB] [] "01-2024"
          = settlementInstructionsAll ["A", "B"] [eGroceryA, eGroceryB] [] :=
  monthly_reconciliation ["A", "B"] [eGroceryA, eGroceryB] [] "01-2024"
    (by decide) (by decide) (by decide) (by decide)

/-! ## Sanity checks of the embedded string and date primitives -/

/-- Sanity: the `Item:` capture is found, lowercased and stops at `-`. -/
theorem itemTagMatch_sanity :
    itemTagMatch "Item: Rice" = some "rice"
      ∧ itemTagMatch "Item: Rice - extra" = some "rice"
      ∧ itemTagMatch "no tag" = none := by
  decide

/-- Sanity: `toFixed(2)` rendering and the settlement-note capture. -/
theorem toFixed_and_settlement_note_sanity :
    fixed2Str 120 = "120.00" ∧ fixed2Str 7 = "7.00"
      ∧ settlementToMatch (some "Settlement payment to Bob") = some "Bob" := by
  decide

/-- Sanity: the Julian-day calendar arithmetic round-trips. -/
theorem calendar_roundtrip_sanity :
    civilFromJdn (jdnFromCivil 2024 1 5) = (2024, 1, 5)
      ∧ civilFromJdn (jdnFromCivil 1999 12 31) = (1999, 12, 31)
      ∧ civilFromJdn (jdnFromCivil 2000 2 29) = (2000, 2, 29) := by
  decide

/-- Sanity: `getMonthYear` on both date encodings, `Date` month/day
rollover, the `MM-YYYY` passthrough, and an unparseable string. -/
theorem getMonthYear_sanity :
    getMonthYear "2024-01-05" = "01-2024"
      ∧ getMonthYear "05-01-2024" = "01-2024"
      ∧ getMonthYear "2023-13-01" = "01-2024"
      ∧ getMonthYear "2023-02-30" = "03-2023"
      ∧ getMonthYear "01-2024" = "01-2024"
      ∧ getMonthYear "garbage" = "garbage" := by
  decide

end RoomeSplit
